import Mathlib

/-!
Verification of the `rust-comparer` crate (`src/lib.rs`): a snapshot
comparer holding one `HashMap` behind `Arc<Mutex<...>>`.

Embedding conventions:
* A Rust `HashMap<K, V>` (and a `DashMap<K, V>` input) is modelled as its
  iteration sequence: a list of key-value entries, type `HMap K V`.  A
  well-formed map has pairwise distinct keys (`hmNodupKeys`).  Iteration
  order of a Rust `HashMap` is arbitrary (randomized hasher), so any list
  order is a possible iteration order of the same logical map.
* The comparer state `HashMapComparer` carries the protected map
  `last_map` plus the `poisoned` flag of the `Mutex`.
* `Mutex::lock().unwrap()` panics when the mutex is poisoned; a panic is
  modelled by `Option`: `none` means the call panics, `some` is a normal
  return.  The `.expect("None Value")` / `.unwrap()` on `last_map.get`
  inside the diff loops is modelled the same way.
* `Result<HashMap<K, V>, Box<dyn Error>>` is modelled as
  `Except CmpError (HMap K V)`; the source never constructs the error
  variant.
* A `&self` method is modelled as explicit state passing: it returns its
  result together with the comparer state after the call.
-/

set_option linter.unusedSectionVars false

variable {K V : Type} [DecidableEq K] [DecidableEq V]

/-- The iteration sequence of a `HashMap<K, V>` (or of a `DashMap<K, V>`
used as the alternate input type): the list of its key-value entries. -/
abbrev HMap (K V : Type) := List (K × V)

/-- Rust `HashMap::get`: the value stored at key `k`, scanning the entries. -/
def hmGet (m : HMap K V) (k : K) : Option V :=
  match m with
  | [] => none
  | (k2, v) :: rest => if k2 = k then some v else hmGet rest k

/-- Rust `HashMap::contains_key`. -/
def hmContains (m : HMap K V) (k : K) : Bool :=
  (hmGet m k).isSome

/-- Rust `HashMap::insert`: replaces the value if the key is present, otherwise
adds the entry at the end of the iteration sequence. -/
def hmInsert (m : HMap K V) (k : K) (v : V) : HMap K V :=
  match m with
  | [] => [(k, v)]
  | (k2, v2) :: rest => if k2 = k then (k, v) :: rest else (k2, v2) :: hmInsert rest k v

/-- The keys of a map, in iteration order. -/
def hmKeys (m : HMap K V) : List K :=
  m.map Prod.fst

/-- The `HashMap` representation invariant: keys are pairwise distinct. -/
def hmNodupKeys (m : HMap K V) : Prop :=
  (hmKeys m).Nodup

instance (m : HMap K V) : Decidable (hmNodupKeys m) := by
  unfold hmNodupKeys; infer_instance

/-- Set-equality of two maps as the spec words it: same keys, each mapped
to an equal value (independent of iteration order).  This definition
follows the spec, not the source; it is the yardstick the source's
`is_same` is measured against. -/
def setEqSpec (a b : HMap K V) : Bool :=
  a.all (fun kv => decide (hmGet b kv.1 = some kv.2)) &&
    b.all (fun kv => decide (hmGet a kv.1 = some kv.2))

/-- The only failure the spec's error taxonomy names. -/
inductive CmpError where
  | lockPoisoned : CmpError
deriving DecidableEq

/-- Rust `struct HashMapComparer { last_map: Arc<Mutex<HashMap<K, V>>> }`,
with the mutex's poison flag made explicit. -/
structure HashMapComparer (K V : Type) where
  poisoned : Bool
  last_map : HMap K V
deriving DecidableEq

namespace HashMapComparer

/-- Rust `self.last_map.lock().unwrap()`: panics (`none`) iff the mutex is
poisoned, otherwise yields the protected map. -/
def lockUnwrap (c : HashMapComparer K V) : Option (HMap K V) :=
  if c.poisoned then none else some c.last_map

/-- Rust `HashMapComparer::new()`: empty snapshot, healthy mutex. -/
def new : HashMapComparer K V :=
  { poisoned := false, last_map := [] }

/-- Rust `clone_last`: clones the snapshot.  Returns the clone and the state
after the call. -/
def clone_last (c : HashMapComparer K V) : Option (HMap K V × HashMapComparer K V) :=
  (lockUnwrap c).map (fun last => (last, c))

/-- Rust `Iterator::eq` on the two entry sequences: element-wise equality of
the iteration sequences, exactly as `last_map.iter().eq(comparable)`
compares them. -/
def iterEq : HMap K V → HMap K V → Bool
  | [], [] => true
  | _ :: _, [] => false
  | [], _ :: _ => false
  | (k, v) :: as1, (k2, v2) :: bs => decide (k = k2) && decide (v = v2) && iterEq as1 bs

/-- Rust `is_same`: `self.last_map.lock().unwrap().iter().eq(comparable)`. -/
def is_same (c : HashMapComparer K V) (comparable : HMap K V) :
    Option (Bool × HashMapComparer K V) :=
  (lockUnwrap c).map (fun last => (iterEq last comparable, c))

/-- Rust `update`: `self.last_map.lock().unwrap().clone_from(new_map)`.
`clone_from` for `HashMap` reproduces the source map, entries, hasher and
layout included, so the snapshot becomes the argument itself. -/
def update (c : HashMapComparer K V) (new_map : HMap K V) :
    Option (Unit × HashMapComparer K V) :=
  (lockUnwrap c).map (fun _ => ((), { c with last_map := new_map }))

/-- Rust `is_same_update`: `let is_same = self.is_same(new_map); self.update(new_map); is_same`
(two separate lock acquisitions). -/
def is_same_update (c : HashMapComparer K V) (new_map : HMap K V) :
    Option (Bool × HashMapComparer K V) := do
  let (b, c1) ← is_same c new_map
  let (_, c2) ← update c1 new_map
  pure (b, c2)

/-- The diff loop shared verbatim by `compare`, `update_and_compare`,
`compare_dashmap` and `update_and_compare_dashmap`:

`for (key, value) in new_map { if !last_map.contains_key(key) || value != last_map.get(key).expect("None Value") { changed_values.insert(key, value) } }`

`acc` is `changed_values`; the `.expect` (resp. `.unwrap`) panic is the
`none` branch of the match. -/
def diffAux (last : HMap K V) : HMap K V → HMap K V → Option (HMap K V)
  | acc, [] => some acc
  | acc, (k, v) :: rest =>
    if hmContains last k = false then
      diffAux last (hmInsert acc k v) rest
    else
      match hmGet last k with
      | none => none
      | some w => if v = w then diffAux last acc rest else diffAux last (hmInsert acc k v) rest

/-- Rust `update_and_compare`: under one lock, if the snapshot is non-empty run
the diff loop, replace the snapshot, and return the changes; otherwise
replace the snapshot and return a clone of `new_map`. -/
def update_and_compare (c : HashMapComparer K V) (new_map : HMap K V) :
    Option (Except CmpError (HMap K V) × HashMapComparer K V) :=
  match lockUnwrap c with
  | none => none
  | some last =>
    if last.isEmpty = false then
      (diffAux last [] new_map).map
        (fun changed => (Except.ok changed, { c with last_map := new_map }))
    else
      some (Except.ok new_map, { c with last_map := new_map })

/-- Rust `compare`: same diff as `update_and_compare` but the snapshot is left
untouched. -/
def compare (c : HashMapComparer K V) (new_map : HMap K V) :
    Option (Except CmpError (HMap K V) × HashMapComparer K V) :=
  match lockUnwrap c with
  | none => none
  | some last =>
    if last.isEmpty = false then
      (diffAux last [] new_map).map (fun changed => (Except.ok changed, c))
    else
      some (Except.ok new_map, c)

/-- The rebuild loop of the `dashmap` variants:
`for entry in new_map.iter() { last_map.insert(entry.key().clone(), entry.value().clone()) }`. -/
def insertAll (m : HMap K V) (entries : HMap K V) : HMap K V :=
  entries.foldl (fun acc kv => hmInsert acc kv.1 kv.2) m

/-- Rust `is_same_dashmap`: length check, then every snapshot entry is looked
up in the `DashMap` (`comparable.get(k).map_or(false, |entry| entry.value() == v)`). -/
def is_same_dashmap (c : HashMapComparer K V) (comparable : HMap K V) :
    Option (Bool × HashMapComparer K V) :=
  (lockUnwrap c).map (fun last =>
    (if last.length ≠ comparable.length then false
     else last.all (fun kv =>
       match hmGet comparable kv.1 with
       | none => false
       | some w => decide (w = kv.2)), c))

/-- Rust `update_dashmap`: `last_map.clear()` then insert every `DashMap`
entry. -/
def update_dashmap (c : HashMapComparer K V) (new_map : HMap K V) :
    Option (Unit × HashMapComparer K V) :=
  (lockUnwrap c).map (fun _ => ((), { c with last_map := insertAll [] new_map }))

/-- Rust `is_same_update_dashmap`: `is_same_dashmap` then `update_dashmap`
(two separate lock acquisitions). -/
def is_same_update_dashmap (c : HashMapComparer K V) (new_map : HMap K V) :
    Option (Bool × HashMapComparer K V) := do
  let (b, c1) ← is_same_dashmap c new_map
  let (_, c2) ← update_dashmap c1 new_map
  pure (b, c2)

/-- Rust `update_and_compare_dashmap`: diff loop, then `clear` + reinsert when
the snapshot was non-empty; when it was empty, insert every entry into the
(empty) snapshot and return `Ok(last_map.clone())`. -/
def update_and_compare_dashmap (c : HashMapComparer K V) (new_map : HMap K V) :
    Option (Except CmpError (HMap K V) × HashMapComparer K V) :=
  match lockUnwrap c with
  | none => none
  | some last =>
    if last.isEmpty = false then
      (diffAux last [] new_map).map
        (fun changed => (Except.ok changed, { c with last_map := insertAll [] new_map }))
    else
      some (Except.ok (insertAll last new_map), { c with last_map := insertAll last new_map })

/-- Rust `compare_dashmap`: diff loop when the snapshot is non-empty; when it
is empty, every entry is inserted into `changed_values` and returned.  The
snapshot is left untouched. -/
def compare_dashmap (c : HashMapComparer K V) (new_map : HMap K V) :
    Option (Except CmpError (HMap K V) × HashMapComparer K V) :=
  match lockUnwrap c with
  | none => none
  | some last =>
    if last.isEmpty = false then
      (diffAux last [] new_map).map (fun changed => (Except.ok changed, c))
    else
      some (Except.ok (insertAll [] new_map), c)

/-- Rust `Result::is_ok` for the modelled return type. -/
def isOkResult : Except CmpError (HMap K V) → Bool
  | Except.ok _ => true
  | Except.error _ => false

end HashMapComparer

/-! ## Basic lemmas about the map model -/

theorem hmKeys_nil : hmKeys ([] : HMap K V) = [] := rfl

theorem hmKeys_cons (k : K) (v : V) (m : HMap K V) :
    hmKeys ((k, v) :: m) = k :: hmKeys m := rfl

theorem hmKeys_append (a b : HMap K V) : hmKeys (a ++ b) = hmKeys a ++ hmKeys b := by
  simp [hmKeys]

theorem hmNodupKeys_cons_iff (k : K) (v : V) (m : HMap K V) :
    hmNodupKeys ((k, v) :: m) ↔ k ∉ hmKeys m ∧ hmNodupKeys m := by
  simp [hmNodupKeys, hmKeys_cons]

theorem hmContains_eq_false_iff (m : HMap K V) (k : K) :
    hmContains m k = false ↔ hmGet m k = none := by
  unfold hmContains
  cases hmGet m k <;> simp

theorem hmContains_eq_true_of_get (m : HMap K V) (k : K) (v : V)
    (h : hmGet m k = some v) : hmContains m k = true := by
  unfold hmContains
  rw [h]
  rfl

theorem hmInsert_eq_append (m : HMap K V) (k : K) (v : V) (h : k ∉ hmKeys m) :
    hmInsert m k v = m ++ [(k, v)] := by
  induction m with
  | nil => rfl
  | cons kv rest ih =>
    obtain ⟨k2, v2⟩ := kv
    rw [hmKeys_cons, List.mem_cons] at h
    push_neg at h
    unfold hmInsert
    rw [if_neg (fun hh => h.1 hh.symm), ih h.2]
    simp

theorem hmGet_eq_some_iff (m : HMap K V) (hm : hmNodupKeys m) (k : K) (v : V) :
    hmGet m k = some v ↔ (k, v) ∈ m := by
  induction m with
  | nil => simp [hmGet]
  | cons kv rest ih =>
    obtain ⟨k2, v2⟩ := kv
    rw [hmNodupKeys_cons_iff] at hm
    unfold hmGet
    by_cases hk : k2 = k
    · subst hk
      have hnotin : (k2, v) ∉ rest := by
        intro hmem
        exact hm.1 (List.mem_map_of_mem Prod.fst hmem)
      simp [hnotin, eq_comm]
    · rw [if_neg hk, ih hm.2]
      simp [hk, Ne.symm hk]

theorem hmNodupKeys_filter (m : HMap K V) (p : K × V → Bool) (hm : hmNodupKeys m) :
    hmNodupKeys (m.filter p) := by
  unfold hmNodupKeys hmKeys at *
  exact hm.sublist ((List.filter_sublist m).map Prod.fst)

/-! ## The diff loop -/

namespace HashMapComparer

/-- The `expect`/`unwrap` inside the diff loop never fires: whenever the
loop reaches the lookup, `contains_key` has already succeeded. -/
theorem diffAux_isSome (last acc new : HMap K V) :
    (diffAux last acc new).isSome = true := by
  induction new generalizing acc with
  | nil => simp [diffAux]
  | cons kv rest ih =>
    obtain ⟨k, v⟩ := kv
    unfold diffAux
    cases hc : hmContains last k with
    | false => simpa using ih (hmInsert acc k v)
    | true =>
      cases hg : hmGet last k with
      | none => exact absurd ((hmContains_eq_false_iff last k).mpr hg) (by simp [hc])
      | some w =>
        by_cases hv : v = w <;> simp [hg, hv, ih]

/-- On a candidate with distinct keys, the diff loop returns the
accumulator followed by the entries of the candidate whose key is new or
changed relative to `last`. -/
theorem diffAux_eq_filter (last : HMap K V) (new acc : HMap K V)
    (h : hmNodupKeys (acc ++ new)) :
    diffAux last acc new =
      some (acc ++ new.filter fun kv => decide (hmGet last kv.1 ≠ some kv.2)) := by
  induction new generalizing acc with
  | nil => simp [diffAux]
  | cons kv rest ih =>
    obtain ⟨k, v⟩ := kv
    have hkeys : hmKeys (acc ++ (k, v) :: rest) = hmKeys acc ++ k :: hmKeys rest := by
      rw [hmKeys_append, hmKeys_cons]
    have hknotacc : k ∉ hmKeys acc := by
      have := h
      unfold hmNodupKeys at this
      rw [hkeys, List.nodup_append] at this
      intro hmem
      exact this.2.2 hmem (List.mem_cons_self k (hmKeys rest))
    have hins : hmInsert acc k v = acc ++ [(k, v)] := hmInsert_eq_append acc k v hknotacc
    have hrearr : acc ++ (k, v) :: rest = (acc ++ [(k, v)]) ++ rest := by simp
    have hskip : hmNodupKeys (acc ++ rest) := by
      unfold hmNodupKeys at h ⊢
      refine List.Nodup.sublist ?_ h
      refine List.Sublist.map Prod.fst ?_
      exact List.Sublist.append_left (List.sublist_cons_self (k, v) rest) acc
    have hkeep : hmNodupKeys ((acc ++ [(k, v)]) ++ rest) := by
      rw [← hrearr]
      exact h
    unfold diffAux
    cases hc : hmContains last k with
    | false =>
      have hg : hmGet last k = none := (hmContains_eq_false_iff last k).mp hc
      rw [hins, ih (acc ++ [(k, v)]) hkeep]
      simp [hg]
    | true =>
      cases hg : hmGet last k with
      | none => exact absurd ((hmContains_eq_false_iff last k).mpr hg) (by simp [hc])
      | some w =>
        have htf : ¬ (true = false) := by simp
        rw [if_neg htf]
        show (if v = w then diffAux last acc rest else diffAux last (hmInsert acc k v) rest) = _
        by_cases hv : v = w
        · rw [if_pos hv, ih acc hskip, List.filter_cons]
          simp [hg, hv]
        · have hwv : w ≠ v := fun hh => hv hh.symm
          rw [if_neg hv, hins, ih (acc ++ [(k, v)]) hkeep, List.filter_cons]
          simp [hg, hwv]

/-- Starting from an empty `changed_values`, the diff loop computes the
filtered candidate. -/
theorem diffAux_nil_eq_filter (last new : HMap K V) (h : hmNodupKeys new) :
    diffAux last [] new =
      some (new.filter fun kv => decide (hmGet last kv.1 ≠ some kv.2)) := by
  have := diffAux_eq_filter last new [] (by simpa using h)
  simpa using this

/-- Diffing a map against itself filters everything out. -/
theorem filter_diff_self (new : HMap K V) (h : hmNodupKeys new) :
    (new.filter fun kv => decide (hmGet new kv.1 ≠ some kv.2)) = [] := by
  rw [List.filter_eq_nil_iff]
  intro kv hmem
  obtain ⟨k, v⟩ := kv
  have : hmGet new k = some v := (hmGet_eq_some_iff new h k v).mpr hmem
  simp [this]

end HashMapComparer

/-! ## Claim theorems -/

namespace HashMapComparer

/-- C10: in the diff loops of `compare`, `update_and_compare` and their
`dashmap` variants, the `expect("None Value")` / `unwrap()` on
`last_map.get(key)` never panics: thanks to the short-circuit after
`contains_key`, the loop (`diffAux`) always returns normally, for every
snapshot, accumulator and candidate. -/
theorem diff_loop_panic_unreachable (last acc new : HMap K V) :
    (diffAux last acc new).isSome = true :=
  diffAux_isSome last acc new

/-- C3 (amended): when the internal guard is poisoned, every subsequent
operation on the comparer panics (the `lock().unwrap()` diverges, modelled
as `none`) instead of returning a recoverable `LockPoisoned` error. -/
theorem poisoned_ops_panic (c : HashMapComparer K V) (m : HMap K V)
    (hp : c.poisoned = true) :
    clone_last c = none ∧ is_same c m = none ∧ update c m = none ∧
      is_same_update c m = none ∧ update_and_compare c m = none ∧ compare c m = none ∧
      is_same_dashmap c m = none ∧ update_dashmap c m = none ∧
      is_same_update_dashmap c m = none ∧ update_and_compare_dashmap c m = none ∧
      compare_dashmap c m = none := by
  simp [clone_last, is_same, update, is_same_update, update_and_compare, compare,
    is_same_dashmap, update_dashmap, is_same_update_dashmap, update_and_compare_dashmap,
    compare_dashmap, lockUnwrap, hp]

/-- C3 witness: the amended behaviour at a concrete poisoned state. -/
theorem poisoned_ops_panic_witness :
    (⟨true, [(2, 2)]⟩ : HashMapComparer Nat Nat).poisoned = true ∧
      (clone_last (⟨true, [(2, 2)]⟩ : HashMapComparer Nat Nat) = none ∧
        is_same (⟨true, [(2, 2)]⟩ : HashMapComparer Nat Nat) [(1, 1)] = none ∧
        update (⟨true, [(2, 2)]⟩ : HashMapComparer Nat Nat) [(1, 1)] = none ∧
        is_same_update (⟨true, [(2, 2)]⟩ : HashMapComparer Nat Nat) [(1, 1)] = none ∧
        update_and_compare (⟨true, [(2, 2)]⟩ : HashMapComparer Nat Nat) [(1, 1)] = none ∧
        compare (⟨true, [(2, 2)]⟩ : HashMapComparer Nat Nat) [(1, 1)] = none ∧
        is_same_dashmap (⟨true, [(2, 2)]⟩ : HashMapComparer Nat Nat) [(1, 1)] = none ∧
        update_dashmap (⟨true, [(2, 2)]⟩ : HashMapComparer Nat Nat) [(1, 1)] = none ∧
        is_same_update_dashmap (⟨true, [(2, 2)]⟩ : HashMapComparer Nat Nat) [(1, 1)] = none ∧
        update_and_compare_dashmap (⟨true, [(2, 2)]⟩ : HashMapComparer Nat Nat) [(1, 1)] = none ∧
        compare_dashmap (⟨true, [(2, 2)]⟩ : HashMapComparer Nat Nat) [(1, 1)] = none) :=
  ⟨rfl, poisoned_ops_panic ⟨true, [(2, 2)]⟩ [(1, 1)] rfl⟩

/-- C3 counterexample: at a concrete poisoned state, `compare` does not
surface a recoverable `LockPoisoned` error result to the caller — it
panics (`none`). -/
theorem poisoned_compare_not_error_cex :
    compare (⟨true, []⟩ : HashMapComparer Nat Nat) [(1, 1)] = none ∧
      compare (⟨true, []⟩ : HashMapComparer Nat Nat) [(1, 1)] ≠
        some (Except.error CmpError.lockPoisoned, ⟨true, []⟩) := by
  constructor
  · rfl
  · simp [compare, lockUnwrap]

/-- C4 bug: `is_same` compares the two iteration sequences element-wise
(`Iterator::eq`), so two maps holding exactly the same key-value pairs but
iterated in different orders — a situation Rust's randomized `HashMap`
hashers produce routinely — are reported as different.  The claimed
"true iff set-equal" fails: here snapshot and candidate are set-equal
(`setEqSpec`), both are well-formed maps, yet `is_same` returns `false`. -/
theorem is_same_order_sensitivity_bug :
    setEqSpec ([(3, 30), (4, 40)] : HMap Nat Nat) [(4, 40), (3, 30)] = true ∧
      hmNodupKeys ([(3, 30), (4, 40)] : HMap Nat Nat) ∧
      hmNodupKeys ([(4, 40), (3, 30)] : HMap Nat Nat) ∧
      is_same (⟨false, [(3, 30), (4, 40)]⟩ : HashMapComparer Nat Nat) [(4, 40), (3, 30)] =
        some (false, ⟨false, [(3, 30), (4, 40)]⟩) := by
  decide

/-- C8 bug: on a plain mapping and a `DashMap` holding exactly the same
entries, `is_same` and `is_same_dashmap` disagree: the `dashmap` variant
checks set-equality, the plain variant compares iteration sequences, so
the two "byte-for-byte identical" operations return opposite booleans. -/
theorem dashmap_is_same_divergence_bug :
    is_same (⟨false, [(1, 10), (2, 20)]⟩ : HashMapComparer Nat Nat) [(2, 20), (1, 10)] =
      some (false, ⟨false, [(1, 10), (2, 20)]⟩) ∧
      is_same_dashmap (⟨false, [(1, 10), (2, 20)]⟩ : HashMapComparer Nat Nat) [(2, 20), (1, 10)] =
        some (true, ⟨false, [(1, 10), (2, 20)]⟩) := by
  decide

/-- C5: `is_same_update` returns exactly what `is_same` returned on the
pre-call state, and afterwards the snapshot equals the argument,
whatever the boolean was. -/
theorem is_same_update_spec (c : HashMapComparer K V) (new_map : HMap K V)
    (hp : c.poisoned = false) :
    ∃ b c1, is_same_update c new_map = some (b, c1) ∧
      is_same c new_map = some (b, c) ∧ c1.last_map = new_map := by
  refine ⟨iterEq c.last_map new_map, { c with last_map := new_map }, ?_, ?_, rfl⟩
  · simp [is_same_update, is_same, update, lockUnwrap, hp]
  · simp [is_same, lockUnwrap, hp]

/-- C5 witness at a concrete state and argument. -/
theorem is_same_update_spec_witness :
    (⟨false, [(5, 50)]⟩ : HashMapComparer Nat Nat).poisoned = false ∧
      ∃ b c1,
        is_same_update (⟨false, [(5, 50)]⟩ : HashMapComparer Nat Nat) [(5, 51)] =
          some (b, c1) ∧
        is_same (⟨false, [(5, 50)]⟩ : HashMapComparer Nat Nat) [(5, 51)] =
          some (b, ⟨false, [(5, 50)]⟩) ∧
        c1.last_map = [(5, 51)] :=
  ⟨rfl, is_same_update_spec ⟨false, [(5, 50)]⟩ [(5, 51)] rfl⟩

/-- C6: after `update(M)`, `clone_last()` returns exactly `M`, from any
starting state. -/
theorem update_then_clone_spec (c : HashMapComparer K V) (new_map : HMap K V)
    (hp : c.poisoned = false) :
    ∃ c1, update c new_map = some ((), c1) ∧ c1.last_map = new_map ∧
      clone_last c1 = some (new_map, c1) := by
  refine ⟨{ c with last_map := new_map }, ?_, rfl, ?_⟩
  · simp [update, lockUnwrap, hp]
  · simp [clone_last, lockUnwrap, hp]

/-- C6 witness at a concrete state and argument. -/
theorem update_then_clone_spec_witness :
    (⟨false, [(9, 90)]⟩ : HashMapComparer Nat Nat).poisoned = false ∧
      ∃ c1,
        update (⟨false, [(9, 90)]⟩ : HashMapComparer Nat Nat) [(7, 70), (8, 80)] =
          some ((), c1) ∧
        c1.last_map = [(7, 70), (8, 80)] ∧
        clone_last c1 = some ([(7, 70), (8, 80)], c1) :=
  ⟨rfl, update_then_clone_spec ⟨false, [(9, 90)]⟩ [(7, 70), (8, 80)] rfl⟩

end HashMapComparer

namespace HashMapComparer

/-- Calling `update_and_compare` when the snapshot already equals the
candidate yields an empty diff (helper for the repeated-call property). -/
theorem update_and_compare_self_empty (c1 : HashMapComparer K V) (new_map : HMap K V)
    (hp : c1.poisoned = false) (hlm : c1.last_map = new_map) (hn : hmNodupKeys new_map) :
    update_and_compare c1 new_map = some (Except.ok [], { c1 with last_map := new_map }) := by
  have hdiff : diffAux c1.last_map [] new_map = some [] := by
    rw [hlm, diffAux_nil_eq_filter new_map new_map hn, filter_diff_self new_map hn]
  cases hE : c1.last_map.isEmpty with
  | false => simp [update_and_compare, lockUnwrap, hp, hE, hdiff]
  | true =>
    have hnil : new_map = [] := by
      rw [← hlm]
      exact List.isEmpty_iff.mp hE
    simp [update_and_compare, lockUnwrap, hp, hE, hnil]

/-- C1: `compare` returns `Ok` of a well-formed diff that is the entire
candidate when the snapshot is empty, and in general holds exactly those
entries `(k, v)` of the candidate whose key is absent from the snapshot or
mapped there to a different value; no key outside the candidate ever
appears in the diff.  The snapshot is left unchanged. -/
theorem compare_diff_spec (c : HashMapComparer K V) (new_map : HMap K V)
    (hp : c.poisoned = false) (hn : hmNodupKeys new_map) :
    ∃ diff, compare c new_map = some (Except.ok diff, c) ∧
      hmNodupKeys diff ∧
      (c.last_map = [] → diff = new_map) ∧
      (∀ k v, hmGet diff k = some v ↔
        hmGet new_map k = some v ∧
          (hmGet c.last_map k = none ∨ hmGet c.last_map k ≠ some v)) ∧
      (∀ k, hmGet new_map k = none → hmGet diff k = none) := by
  cases hE : c.last_map.isEmpty with
  | true =>
    have hlm : c.last_map = [] := List.isEmpty_iff.mp hE
    refine ⟨new_map, ?_, hn, fun _ => rfl, ?_, fun _ h => h⟩
    · simp [compare, lockUnwrap, hp, hE]
    · intro k v
      simp [hlm, hmGet]
  | false =>
    have hlmne : c.last_map ≠ [] := by
      intro h
      rw [h] at hE
      exact absurd hE (by simp)
    have hnd : hmNodupKeys (new_map.filter fun kv => decide (hmGet c.last_map kv.1 ≠ some kv.2)) :=
      hmNodupKeys_filter new_map _ hn
    have hiff : ∀ k v,
        hmGet (new_map.filter fun kv => decide (hmGet c.last_map kv.1 ≠ some kv.2)) k = some v ↔
          hmGet new_map k = some v ∧
            (hmGet c.last_map k = none ∨ hmGet c.last_map k ≠ some v) := by
      intro k v
      rw [hmGet_eq_some_iff _ hnd k v, List.mem_filter, ← hmGet_eq_some_iff new_map hn k v]
      constructor
      · rintro ⟨h1, h2⟩
        rw [decide_eq_true_iff] at h2
        exact ⟨h1, Or.inr h2⟩
      · rintro ⟨h1, h2⟩
        refine ⟨h1, ?_⟩
        rw [decide_eq_true_iff]
        rcases h2 with hnone | hne
        · rw [hnone]
          exact fun hh => Option.noConfusion hh
        · exact hne
    refine ⟨new_map.filter fun kv => decide (hmGet c.last_map kv.1 ≠ some kv.2),
      ?_, hnd, ?_, hiff, ?_⟩
    · have hdiff := diffAux_nil_eq_filter c.last_map new_map hn
      simp [compare, lockUnwrap, hp, hE, hdiff]
    · intro h
      exact absurd h hlmne
    · intro k hnone
      cases hdk : hmGet (new_map.filter fun kv => decide (hmGet c.last_map kv.1 ≠ some kv.2)) k with
      | none => rfl
      | some v =>
        have hmem := (hiff k v).mp hdk
        rw [hnone] at hmem
        exact absurd hmem.1 (fun hh => Option.noConfusion hh)

/-- C1 witness at a concrete state and candidate. -/
theorem compare_diff_spec_witness :
    (⟨false, [(1, 10), (2, 20)]⟩ : HashMapComparer Nat Nat).poisoned = false ∧
      hmNodupKeys ([(2, 21), (3, 30)] : HMap Nat Nat) ∧
      ∃ diff,
        compare (⟨false, [(1, 10), (2, 20)]⟩ : HashMapComparer Nat Nat) [(2, 21), (3, 30)] =
          some (Except.ok diff, ⟨false, [(1, 10), (2, 20)]⟩) ∧
        hmNodupKeys diff ∧
        ((⟨false, [(1, 10), (2, 20)]⟩ : HashMapComparer Nat Nat).last_map = [] →
          diff = [(2, 21), (3, 30)]) ∧
        (∀ k v, hmGet diff k = some v ↔
          hmGet [(2, 21), (3, 30)] k = some v ∧
            (hmGet [(1, 10), (2, 20)] k = none ∨ hmGet [(1, 10), (2, 20)] k ≠ some v)) ∧
        (∀ k, hmGet [(2, 21), (3, 30)] k = none → hmGet diff k = none) :=
  ⟨rfl, by decide, compare_diff_spec ⟨false, [(1, 10), (2, 20)]⟩ [(2, 21), (3, 30)] rfl (by decide)⟩

/-- C2: `update_and_compare(M)` returns exactly the diff `compare(M)`
computes on the pre-call snapshot and leaves the snapshot equal to `M`;
hence a second `update_and_compare(M)` right after returns an empty
diff. -/
theorem update_and_compare_spec (c : HashMapComparer K V) (new_map : HMap K V)
    (hp : c.poisoned = false) (hn : hmNodupKeys new_map) :
    ∃ r c1, update_and_compare c new_map = some (r, c1) ∧
      compare c new_map = some (r, c) ∧
      c1.last_map = new_map ∧
      ∃ c2, update_and_compare c1 new_map = some (Except.ok [], c2) := by
  have hsecond :=
    update_and_compare_self_empty { c with last_map := new_map } new_map hp rfl hn
  cases hE : c.last_map.isEmpty with
  | true =>
    refine ⟨Except.ok new_map, { c with last_map := new_map }, ?_, ?_, rfl, ⟨_, hsecond⟩⟩
    · simp [update_and_compare, lockUnwrap, hp, hE]
    · simp [compare, lockUnwrap, hp, hE]
  | false =>
    obtain ⟨dm, hdm⟩ := Option.isSome_iff_exists.mp (diffAux_isSome c.last_map [] new_map)
    refine ⟨Except.ok dm, { c with last_map := new_map }, ?_, ?_, rfl, ⟨_, hsecond⟩⟩
    · simp [update_and_compare, lockUnwrap, hp, hE, hdm]
    · simp [compare, lockUnwrap, hp, hE, hdm]

/-- C2 witness at a concrete state and candidate. -/
theorem update_and_compare_spec_witness :
    (⟨false, [(1, 10)]⟩ : HashMapComparer Nat Nat).poisoned = false ∧
      hmNodupKeys ([(1, 11), (4, 40)] : HMap Nat Nat) ∧
      ∃ r c1,
        update_and_compare (⟨false, [(1, 10)]⟩ : HashMapComparer Nat Nat) [(1, 11), (4, 40)] =
          some (r, c1) ∧
        compare (⟨false, [(1, 10)]⟩ : HashMapComparer Nat Nat) [(1, 11), (4, 40)] =
          some (r, ⟨false, [(1, 10)]⟩) ∧
        c1.last_map = [(1, 11), (4, 40)] ∧
        ∃ c2, update_and_compare c1 [(1, 11), (4, 40)] = some (Except.ok [], c2) :=
  ⟨rfl, by decide, update_and_compare_spec ⟨false, [(1, 10)]⟩ [(1, 11), (4, 40)] rfl (by decide)⟩

/-- C7: the read-only operations `compare`, `is_same`, `clone_last`,
`compare_dashmap` and `is_same_dashmap` return with the comparer state —
in particular the snapshot — exactly as it was before the call. -/
theorem readonly_ops_keep_snapshot (c : HashMapComparer K V) (m d : HMap K V)
    (hp : c.poisoned = false) :
    (∃ r, compare c m = some (r, c)) ∧
      (∃ b, is_same c m = some (b, c)) ∧
      (∃ s, clone_last c = some (s, c)) ∧
      (∃ r, compare_dashmap c d = some (r, c)) ∧
      (∃ b, is_same_dashmap c d = some (b, c)) := by
  refine ⟨?_, ⟨iterEq c.last_map m, by simp [is_same, lockUnwrap, hp]⟩,
    ⟨c.last_map, by simp [clone_last, lockUnwrap, hp]⟩, ?_, ?_⟩
  · cases hE : c.last_map.isEmpty with
    | true => exact ⟨Except.ok m, by simp [compare, lockUnwrap, hp, hE]⟩
    | false =>
      obtain ⟨dm, hdm⟩ := Option.isSome_iff_exists.mp (diffAux_isSome c.last_map [] m)
      exact ⟨Except.ok dm, by simp [compare, lockUnwrap, hp, hE, hdm]⟩
  · cases hE : c.last_map.isEmpty with
    | true =>
      exact ⟨Except.ok (insertAll [] d), by simp [compare_dashmap, lockUnwrap, hp, hE]⟩
    | false =>
      obtain ⟨dd, hdd⟩ := Option.isSome_iff_exists.mp (diffAux_isSome c.last_map [] d)
      exact ⟨Except.ok dd, by simp [compare_dashmap, lockUnwrap, hp, hE, hdd]⟩
  · refine ⟨if c.last_map.length ≠ d.length then false
      else c.last_map.all (fun kv =>
        match hmGet d kv.1 with
        | none => false
        | some w => decide (w = kv.2)), ?_⟩
    simp [is_same_dashmap, lockUnwrap, hp]

/-- C7 witness at a concrete state and inputs. -/
theorem readonly_ops_keep_snapshot_witness :
    (⟨false, [(6, 60)]⟩ : HashMapComparer Nat Nat).poisoned = false ∧
      ((∃ r, compare (⟨false, [(6, 60)]⟩ : HashMapComparer Nat Nat) [(6, 61)] =
          some (r, ⟨false, [(6, 60)]⟩)) ∧
        (∃ b, is_same (⟨false, [(6, 60)]⟩ : HashMapComparer Nat Nat) [(6, 61)] =
          some (b, ⟨false, [(6, 60)]⟩)) ∧
        (∃ s, clone_last (⟨false, [(6, 60)]⟩ : HashMapComparer Nat Nat) =
          some (s, ⟨false, [(6, 60)]⟩)) ∧
        (∃ r, compare_dashmap (⟨false, [(6, 60)]⟩ : HashMapComparer Nat Nat) [(7, 70)] =
          some (r, ⟨false, [(6, 60)]⟩)) ∧
        (∃ b, is_same_dashmap (⟨false, [(6, 60)]⟩ : HashMapComparer Nat Nat) [(7, 70)] =
          some (b, ⟨false, [(6, 60)]⟩))) :=
  ⟨rfl, readonly_ops_keep_snapshot ⟨false, [(6, 60)]⟩ [(6, 61)] [(7, 70)] rfl⟩

/-- C9: the four `Result`-returning operations only ever produce the `Ok`
variant: whenever they return at all, the returned result satisfies
`isOkResult`; the error variant is never constructed. -/
theorem results_always_ok (c : HashMapComparer K V) (m d : HMap K V) :
    ((compare c m).all fun rc => isOkResult rc.1) = true ∧
      ((update_and_compare c m).all fun rc => isOkResult rc.1) = true ∧
      ((compare_dashmap c d).all fun rc => isOkResult rc.1) = true ∧
      ((update_and_compare_dashmap c d).all fun rc => isOkResult rc.1) = true := by
  cases hp : c.poisoned with
  | true =>
    refine ⟨?_, ?_, ?_, ?_⟩ <;>
      simp [compare, update_and_compare, compare_dashmap, update_and_compare_dashmap,
        lockUnwrap, hp]
  | false =>
    cases hE : c.last_map.isEmpty with
    | true =>
      refine ⟨?_, ?_, ?_, ?_⟩ <;>
        simp [compare, update_and_compare, compare_dashmap, update_and_compare_dashmap,
          lockUnwrap, hp, hE, isOkResult]
    | false =>
      obtain ⟨dm, hdm⟩ := Option.isSome_iff_exists.mp (diffAux_isSome c.last_map [] m)
      obtain ⟨dd, hdd⟩ := Option.isSome_iff_exists.mp (diffAux_isSome c.last_map [] d)
      refine ⟨?_, ?_, ?_, ?_⟩ <;>
        simp [compare, update_and_compare, compare_dashmap, update_and_compare_dashmap,
          lockUnwrap, hp, hE, hdm, hdd, isOkResult]

end HashMapComparer
